import Mathlib

/-!
Verification of the BillTheAccountant debt ledger.

The definitions below are a shallow embedding of the Solidity contract
`contracts/BillTheAccountant.sol` (netting engine `addDebt`, the
propose/confirm/reject proposal state machine, `settleDebt`, and
`registerUser`), together with the pending-balance reconstruction performed
by the Discord bot's `balance` command handler (`scripts/deploy.ts`).

Design notes on the embedding:
* `uint256` values become `Nat` with every checked arithmetic operation of
  Solidity 0.8 modelled explicitly: an increment or addition that would
  reach `2 ^ 256` reverts (`Err.Overflow`).
* Account and token addresses are opaque handles, modelled as `Nat`
  (`0` plays the role of `address(0)`).
* The EVM's transactional semantics are modelled functionally: an operation
  returns `Except Err ContractState`; an `Except.error` outcome means the
  transaction reverted and the pre-state is kept (`execOp`).
* The external `IERC20.transferFrom` call in `settleDebt` is an oracle
  parameter of type `TransferResult`.  The source ignores the boolean the
  token returns, so a `returnsFalse` outcome proceeds exactly like
  `success`; only a `reverts` outcome aborts the transaction.
-/

namespace BillTheAccountant

/-- Opaque account / token address handle; `0` is `address(0)`. -/
abbrev Address := Nat

/-- Key of the nested `debts` mapping: `(token, debtor, creditor)`. -/
abbrev DebtKey := Address × Address × Address

/-- First value outside `uint256` range; Solidity 0.8 checked arithmetic
reverts when a result would reach this bound. -/
def uint256Bound : Nat := 2 ^ 256

/-- Error taxonomy of the contract's `require` failures and checked
arithmetic, named after the specification's error classes. -/
inductive Err where
  | InvalidOperands
  | NotFound
  | Unauthorized
  | NothingToSettle
  | TransferFailed
  | Overflow
  | EmptyDiscordId
  | ZeroWalletAddress
  | DiscordIdAlreadyRegistered
  | WalletAlreadyRegistered
  deriving DecidableEq, Repr

/-- Outcome of the external `IERC20.transferFrom` call made by
`settleDebt`: the token either returns `true`, returns `false`
(the ERC-20 failure signal), or reverts. -/
inductive TransferResult where
  | success
  | returnsFalse
  | reverts
  deriving DecidableEq, Repr

/-- The `PendingDebt` struct of the contract. -/
structure PendingDebt where
  creditor : Address
  debtor : Address
  token : Address
  amount : Nat
  memo : String
  existsFlag : Bool
  deriving DecidableEq, Repr

/-- `delete pendingDebts[id]` resets the slot to this default struct. -/
def emptyPending : PendingDebt :=
  { creditor := 0, debtor := 0, token := 0, amount := 0, memo := "", existsFlag := false }

/-- The contract's events, one constructor per `event` declaration. -/
inductive Event where
  | DebtAdded (actionId : Nat) (debtor creditor token : Address)
      (amount : Nat) (memo : String) (timestamp : Nat)
  | DebtSettled (debtor creditor token : Address) (amount : Nat)
  | DebtProposed (pendingDebtId : Nat) (creditor debtor token : Address)
      (amount : Nat) (memo : String)
  | DebtConfirmed (pendingDebtId : Nat)
  | DebtRejected (pendingDebtId : Nat)
  | UserRegistered (discordId : String) (walletAddress : Address)
  deriving DecidableEq, Repr

/-- Storage of the contract plus the (append-only) event log. -/
structure ContractState where
  debts : DebtKey → Nat
  debtActionCounter : Nat
  discordToWallet : String → Address
  walletToDiscord : Address → String
  pendingDebts : Nat → PendingDebt
  pendingDebtCounter : Nat
  events : List Event

/-- Freshly deployed contract: every mapping at its default value. -/
def initialState : ContractState :=
  { debts := fun _ => 0
    debtActionCounter := 0
    discordToWallet := fun _ => 0
    walletToDiscord := fun _ => ""
    pendingDebts := fun _ => emptyPending
    pendingDebtCounter := 0
    events := [] }

/-- Write one entry of the `debts` mapping. -/
def setDebt (s : ContractState) (token debtor creditor : Address) (v : Nat) :
    ContractState :=
  { s with debts := Function.update s.debts (token, debtor, creditor) v }

/-- Append an event to the log. -/
def emitEvent (s : ContractState) (e : Event) : ContractState :=
  { s with events := s.events ++ [e] }

/-- `debtActionCounter++` followed by the `DebtAdded` emission at the end of
`addDebt` (contract lines 115-124). -/
def finishAddDebt (s : ContractState) (token debtor creditor : Address)
    (amount : Nat) (memo : String) (timestamp : Nat) : Except Err ContractState :=
  if s.debtActionCounter + 1 < uint256Bound then
    Except.ok (emitEvent { s with debtActionCounter := s.debtActionCounter + 1 }
      (Event.DebtAdded (s.debtActionCounter + 1) debtor creditor token amount memo timestamp))
  else Except.error Err.Overflow

/-- The netting engine, `addDebt` (internal, contract lines 100-125). -/
def addDebt (s : ContractState) (token debtor creditor : Address)
    (amount : Nat) (memo : String) (timestamp : Nat) : Except Err ContractState :=
  if debtor = creditor then Except.error Err.InvalidOperands
  else if amount = 0 then Except.error Err.InvalidOperands
  else
    let existingOppositeDebt := s.debts (token, creditor, debtor)
    if amount ≤ existingOppositeDebt then
      finishAddDebt (setDebt s token creditor debtor (existingOppositeDebt - amount))
        token debtor creditor amount memo timestamp
    else
      let s0 := if 0 < existingOppositeDebt then setDebt s token creditor debtor 0 else s
      let newAmount := s0.debts (token, debtor, creditor) + (amount - existingOppositeDebt)
      if newAmount < uint256Bound then
        finishAddDebt (setDebt s0 token debtor creditor newAmount)
          token debtor creditor amount memo timestamp
      else Except.error Err.Overflow

/-- `proposeDebt` (contract lines 73-78); `sender` is `msg.sender`, the
creditor of the proposal. -/
def proposeDebt (s : ContractState) (sender token debtor : Address)
    (amount : Nat) (memo : String) : Except Err ContractState :=
  if debtor = sender then Except.error Err.InvalidOperands
  else if s.pendingDebtCounter + 1 < uint256Bound then
    Except.ok (emitEvent
      { s with
        pendingDebtCounter := s.pendingDebtCounter + 1
        pendingDebts := Function.update s.pendingDebts (s.pendingDebtCounter + 1)
          { creditor := sender, debtor := debtor, token := token,
            amount := amount, memo := memo, existsFlag := true } }
      (Event.DebtProposed (s.pendingDebtCounter + 1) sender debtor token amount memo))
  else Except.error Err.Overflow

/-- `confirmDebt` (contract lines 80-89). -/
def confirmDebt (s : ContractState) (sender : Address) (pendingDebtId : Nat)
    (timestamp : Nat) : Except Err ContractState :=
  let pending := s.pendingDebts pendingDebtId
  if pending.existsFlag then
    if sender = pending.debtor then
      (addDebt s pending.token pending.debtor pending.creditor
          pending.amount pending.memo timestamp).map fun s1 =>
        emitEvent
          { s1 with pendingDebts := Function.update s1.pendingDebts pendingDebtId emptyPending }
          (Event.DebtConfirmed pendingDebtId)
    else Except.error Err.Unauthorized
  else Except.error Err.NotFound

/-- `rejectDebt` (contract lines 91-98). -/
def rejectDebt (s : ContractState) (sender : Address) (pendingDebtId : Nat) :
    Except Err ContractState :=
  let pending := s.pendingDebts pendingDebtId
  if pending.existsFlag then
    if sender = pending.debtor ∨ sender = pending.creditor then
      Except.ok (emitEvent
        { s with pendingDebts := Function.update s.pendingDebts pendingDebtId emptyPending }
        (Event.DebtRejected pendingDebtId))
    else Except.error Err.Unauthorized
  else Except.error Err.NotFound

/-- The ledger state in which the external `transferFrom` of `settleDebt`
executes: the settled entry has already been zeroed (contract line 131). -/
def settleIntermediate (s : ContractState) (sender token creditor : Address) :
    ContractState :=
  setDebt s token sender creditor 0

/-- `settleDebt` (contract lines 127-136); `sender` is `msg.sender`, the
debtor.  The boolean returned by `transferFrom` is not inspected by the
source, so only a reverting transfer aborts the transaction. -/
def settleDebt (s : ContractState) (sender token creditor : Address)
    (tr : TransferResult) : Except Err ContractState :=
  let amountOwed := s.debts (token, sender, creditor)
  if amountOwed = 0 then Except.error Err.NothingToSettle
  else
    match tr with
    | TransferResult.reverts => Except.error Err.TransferFailed
    | _ => Except.ok (emitEvent (settleIntermediate s sender token creditor)
        (Event.DebtSettled sender creditor token amountOwed))

/-- `registerUser` (contract lines 138-148). -/
def registerUser (s : ContractState) (discordId : String) (walletAddress : Address) :
    Except Err ContractState :=
  if discordId = "" then Except.error Err.EmptyDiscordId
  else if walletAddress = 0 then Except.error Err.ZeroWalletAddress
  else if s.discordToWallet discordId = 0 then
    if s.walletToDiscord walletAddress = "" then
      Except.ok (emitEvent
        { s with
          discordToWallet := Function.update s.discordToWallet discordId walletAddress
          walletToDiscord := Function.update s.walletToDiscord walletAddress discordId }
        (Event.UserRegistered discordId walletAddress))
    else Except.error Err.WalletAlreadyRegistered
  else Except.error Err.DiscordIdAlreadyRegistered

/-- The contract's public state-mutating surface. -/
inductive Op where
  | propose (sender token debtor : Address) (amount : Nat) (memo : String)
  | confirm (sender : Address) (pendingDebtId : Nat) (timestamp : Nat)
  | reject (sender : Address) (pendingDebtId : Nat)
  | settle (sender token creditor : Address) (tr : TransferResult)
  | register (discordId : String) (walletAddress : Address)

/-- Dispatch one public operation. -/
def applyOp (s : ContractState) : Op → Except Err ContractState
  | Op.propose sender token debtor amount memo => proposeDebt s sender token debtor amount memo
  | Op.confirm sender pendingDebtId timestamp => confirmDebt s sender pendingDebtId timestamp
  | Op.reject sender pendingDebtId => rejectDebt s sender pendingDebtId
  | Op.settle sender token creditor tr => settleDebt s sender token creditor tr
  | Op.register discordId walletAddress => registerUser s discordId walletAddress

/-- Execute one transaction: a revert leaves the state unchanged. -/
def execOp (s : ContractState) (op : Op) : ContractState :=
  match applyOp s op with
  | Except.ok s1 => s1
  | Except.error _ => s

/-- Execute a sequence of transactions. -/
def execOps (s : ContractState) : List Op → ContractState
  | [] => s
  | op :: rest => execOps (execOp s op) rest

/-- Run the netting engine, keeping the pre-state on revert. -/
def runAddDebt (s : ContractState) (token debtor creditor : Address)
    (amount : Nat) (memo : String) (timestamp : Nat) : ContractState :=
  match addDebt s token debtor creditor amount memo timestamp with
  | Except.ok s1 => s1
  | Except.error _ => s

/-- Apply a sequence of netting calls between the fixed pair `(a, b)` on one
token; an entry `(true, n)` means "a owes b `n`", `(false, n)` means
"b owes a `n`".  The whole sequence fails as soon as one call reverts. -/
def applyDebtSeq (s : ContractState) (token a b : Address) :
    List (Bool × Nat) → Except Err ContractState
  | [] => Except.ok s
  | (dir, amt) :: rest =>
    match addDebt s token (cond dir a b) (cond dir b a) amt "" 0 with
    | Except.error e => Except.error e
    | Except.ok s1 => applyDebtSeq s1 token a b rest

/-- Signed sum of a sequence of directed amounts: a-owes-b counted
positive, b-owes-a negative. -/
def signedSum : List (Bool × Nat) → Int
  | [] => 0
  | (dir, amt) :: rest => (cond dir (amt : Int) (-(amt : Int))) + signedSum rest

/-- Run a netting sequence, keeping `initialState` if it reverts. -/
def runDebtSeq (token a b : Address) (calls : List (Bool × Nat)) : ContractState :=
  match applyDebtSeq initialState token a b calls with
  | Except.ok s1 => s1
  | Except.error _ => initialState

/-- Is `e` a resolution event (`DebtConfirmed` or `DebtRejected`) for
proposal `id`? -/
def isResolutionFor (id : Nat) : Event → Bool
  | Event.DebtConfirmed i => i == id
  | Event.DebtRejected i => i == id
  | _ => false

/-- How many resolution events for proposal `id` the log holds. -/
def resolutionCount (id : Nat) (events : List Event) : Nat :=
  (events.filter (isResolutionFor id)).length

/-- Inductive invariant of the proposal state machine: every proposal id is
resolved at most once, a live pending entry has not been resolved yet, and
ids above the counter are untouched. -/
def ProposalInv (s : ContractState) : Prop :=
  ∀ id, resolutionCount id s.events ≤ 1 ∧
    ((s.pendingDebts id).existsFlag = true → resolutionCount id s.events = 0) ∧
    (s.pendingDebtCounter < id →
      (s.pendingDebts id).existsFlag = false ∧ resolutionCount id s.events = 0)

/-- Registration invariant: the empty id and the zero address are never
registered, and the two registration maps are mutually inverse on their
registered entries (so each map is one-to-one where defined). -/
def RegInv (s : ContractState) : Prop :=
  s.discordToWallet "" = 0 ∧ s.walletToDiscord 0 = "" ∧
  (∀ d, s.discordToWallet d ≠ 0 → s.walletToDiscord (s.discordToWallet d) = d) ∧
  (∀ w, s.walletToDiscord w ≠ "" → s.discordToWallet (s.walletToDiscord w) = w)

/-! Definitions below embed the `balance` command handler of the Discord
bot (`scripts/deploy.ts`): reconstruction of pending balances by scanning
`DebtProposed` events and checking each for a later resolution event. -/

/-- `isDebtResolved` of the bot: the log holds a `DebtConfirmed` or a
`DebtRejected` event for this proposal id. -/
def isDebtResolved (events : List Event) (pendingDebtId : Nat) : Bool :=
  decide (0 < (events.filter fun e =>
      match e with
      | Event.DebtConfirmed i => i == pendingDebtId
      | _ => false).length) ||
  decide (0 < (events.filter fun e =>
      match e with
      | Event.DebtRejected i => i == pendingDebtId
      | _ => false).length)

/-- The bot's relevance filter: a `DebtProposed` event between the two
users (in either direction) on the queried token. -/
def relevantBalanceEvent (user1 user2 token : Address) : Event → Bool
  | Event.DebtProposed _ creditor debtor tok _ _ =>
    ((creditor == user1 && debtor == user2) || (creditor == user2 && debtor == user1)) &&
      tok == token
  | _ => false

/-- First event argument, `args[0]` of a `DebtProposed` log entry. -/
def proposalIdOf : Event → Nat
  | Event.DebtProposed id _ _ _ _ _ => id
  | _ => 0

/-- One step of the bot's accumulation loop over unresolved proposals:
`acc.1` is `pendingOwed` (user1 is debtor), `acc.2` is `pendingOwing`
(user2 is debtor). -/
def pendingStep (user1 user2 : Address) (acc : Nat × Nat) : Event → Nat × Nat
  | Event.DebtProposed _ creditor debtor _ amount _ =>
    if debtor == user1 && creditor == user2 then (acc.1 + amount, acc.2)
    else if debtor == user2 && creditor == user1 then (acc.1, acc.2 + amount)
    else acc
  | _ => acc

/-- The pending part of the bot's balance reply: filter all `DebtProposed`
events by pair and token, drop the resolved ones, and sum the amounts per
direction. -/
def viewBalancePending (events : List Event) (user1 user2 token : Address) : Nat × Nat :=
  (((events.filter (relevantBalanceEvent user1 user2 token)).filter fun e =>
      !(isDebtResolved events (proposalIdOf e))).foldl (pendingStep user1 user2) (0, 0))

/-- The bot's balance view: confirmed figures read from the ledger,
pending figures reconstructed from the event log. -/
def viewBalance (s : ContractState) (user1 user2 token : Address) :
    (Nat × Nat) × (Nat × Nat) :=
  ((s.debts (token, user1, user2), s.debts (token, user2, user1)),
    viewBalancePending s.events user1 user2 token)

/-- Modelled from the spec: a proposal is still `Open` when the log holds
neither a `DebtConfirmed` nor a `DebtRejected` event for its id. -/
def stillOpenReplay (events : List Event) (id : Nat) : Bool :=
  events.all fun e =>
    match e with
    | Event.DebtConfirmed i => !(i == id)
    | Event.DebtRejected i => !(i == id)
    | _ => true

/-- Modelled from the spec: full replay of the event log — the pending
total owed by `debtor` to `creditor` is the sum of the amounts of all
still-open `DebtProposed` events with that exact direction and token. -/
def replayPendingTotal (events : List Event) (debtor creditor token : Address) : Nat :=
  (events.map fun e =>
    match e with
    | Event.DebtProposed id c d tok amount _ =>
      if d == debtor && c == creditor && tok == token && stillOpenReplay events id
      then amount else 0
    | _ => 0).sum

/-- A concrete reachable state holding a single confirmed debt of 50 from
account 1 to account 2 on token 0. -/
def cexState : ContractState :=
  execOps initialState [Op.propose 2 0 1 50 "pizza", Op.confirm 1 1 0]

end BillTheAccountant

/-! ### Inversion and framing lemmas for the operations -/

namespace BillTheAccountant


theorem except_map_ok {α β : Type} {f : α → β} {x : Except Err α} {b : β}
    (h : x.map f = Except.ok b) : ∃ a, x = Except.ok a ∧ b = f a := by
  cases x with
  | error e => simp [Except.map] at h
  | ok a =>
    simp only [Except.map, Except.ok.injEq] at h
    exact ⟨a, rfl, h.symm⟩

theorem addDebt_ok_frame {s : ContractState} {token debtor creditor : Address}
    {amount : Nat} {memo : String} {ts : Nat} {s1 : ContractState}
    (h : addDebt s token debtor creditor amount memo ts = Except.ok s1) :
    s1.pendingDebts = s.pendingDebts ∧
    s1.pendingDebtCounter = s.pendingDebtCounter ∧
    s1.discordToWallet = s.discordToWallet ∧
    s1.walletToDiscord = s.walletToDiscord ∧
    s1.debtActionCounter = s.debtActionCounter + 1 ∧
    s1.events = s.events ++
      [Event.DebtAdded (s.debtActionCounter + 1) debtor creditor token amount memo ts] := by
  simp only [addDebt, finishAddDebt] at h
  split_ifs at h <;>
    first
      | exact Except.noConfusion h
      | (injection h with h
         subst h
         simp [emitEvent, setDebt])

theorem addDebt_ok_conditions {s : ContractState} {token debtor creditor : Address}
    {amount : Nat} {memo : String} {ts : Nat} {s1 : ContractState}
    (h : addDebt s token debtor creditor amount memo ts = Except.ok s1) :
    debtor ≠ creditor ∧ 0 < amount := by
  have hdc : debtor ≠ creditor := by
    intro hdc
    unfold addDebt at h
    rw [if_pos hdc] at h
    exact Except.noConfusion h
  refine ⟨hdc, ?_⟩
  rcases Nat.eq_zero_or_pos amount with h0 | h0
  · unfold addDebt at h
    rw [if_neg hdc, if_pos h0] at h
    exact Except.noConfusion h
  · exact h0

theorem addDebt_ok_debts {s : ContractState} {token debtor creditor : Address}
    {amount : Nat} {memo : String} {ts : Nat} {s1 : ContractState}
    (h : addDebt s token debtor creditor amount memo ts = Except.ok s1) :
    (amount ≤ s.debts (token, creditor, debtor) ∧
      s1.debts = Function.update s.debts (token, creditor, debtor)
        (s.debts (token, creditor, debtor) - amount)) ∨
    (s.debts (token, creditor, debtor) < amount ∧
      s1.debts = Function.update (Function.update s.debts (token, creditor, debtor) 0)
        (token, debtor, creditor)
        (s.debts (token, debtor, creditor) + (amount - s.debts (token, creditor, debtor)))) := by
  obtain ⟨hdc, hpos⟩ := addDebt_ok_conditions h
  have hkey : ((token, debtor, creditor) : DebtKey) ≠ (token, creditor, debtor) := by
    intro hk
    exact hdc (congrArg Prod.fst (congrArg Prod.snd hk))
  simp only [addDebt, finishAddDebt] at h
  rw [if_neg hdc, if_neg (Nat.pos_iff_ne_zero.mp hpos)] at h
  by_cases hle : amount ≤ s.debts (token, creditor, debtor)
  · left
    refine ⟨hle, ?_⟩
    simp only [if_pos hle] at h
    split_ifs at h
    injection h with h
    subst h
    simp [emitEvent, setDebt]
  · right
    refine ⟨Nat.lt_of_not_le hle, ?_⟩
    simp only [if_neg hle] at h
    by_cases hopp : 0 < s.debts (token, creditor, debtor)
    · simp only [if_pos hopp] at h
      split_ifs at h
      injection h with h
      subst h
      simp only [emitEvent, setDebt]
      rw [Function.update_noteq hkey]
    · have hzero : s.debts (token, creditor, debtor) = 0 := Nat.eq_zero_of_not_pos hopp
      simp only [if_neg hopp] at h
      split_ifs at h
      injection h with h
      subst h
      simp only [emitEvent, setDebt]
      rw [show Function.update s.debts (token, creditor, debtor) 0 = s.debts from by
        rw [← hzero]; exact Function.update_eq_self _ _]



theorem proposeDebt_ok {s : ContractState} {sender token debtor : Address}
    {amount : Nat} {memo : String} {s1 : ContractState}
    (h : proposeDebt s sender token debtor amount memo = Except.ok s1) :
    debtor ≠ sender ∧ s.pendingDebtCounter + 1 < uint256Bound ∧
    s1.debts = s.debts ∧ s1.debtActionCounter = s.debtActionCounter ∧
    s1.discordToWallet = s.discordToWallet ∧ s1.walletToDiscord = s.walletToDiscord ∧
    s1.pendingDebtCounter = s.pendingDebtCounter + 1 ∧
    s1.pendingDebts = Function.update s.pendingDebts (s.pendingDebtCounter + 1)
      { creditor := sender, debtor := debtor, token := token,
        amount := amount, memo := memo, existsFlag := true } ∧
    s1.events = s.events ++
      [Event.DebtProposed (s.pendingDebtCounter + 1) sender debtor token amount memo] := by
  unfold proposeDebt at h
  split_ifs at h with h1 h2
  injection h with h
  subst h
  exact ⟨h1, h2, rfl, rfl, rfl, rfl, rfl, rfl, rfl⟩

theorem confirmDebt_ok {s : ContractState} {sender : Address} {id ts : Nat}
    {s2 : ContractState} (h : confirmDebt s sender id ts = Except.ok s2) :
    (s.pendingDebts id).existsFlag = true ∧ sender = (s.pendingDebts id).debtor ∧
    ∃ s1, addDebt s (s.pendingDebts id).token (s.pendingDebts id).debtor
        (s.pendingDebts id).creditor (s.pendingDebts id).amount (s.pendingDebts id).memo ts
        = Except.ok s1 ∧
      s2 = emitEvent { s1 with pendingDebts := Function.update s1.pendingDebts id emptyPending }
        (Event.DebtConfirmed id) := by
  simp only [confirmDebt] at h
  split_ifs at h with h1 h2
  obtain ⟨s1, hadd, hs2⟩ := except_map_ok h
  exact ⟨h1, h2, s1, hadd, hs2⟩

theorem rejectDebt_ok {s : ContractState} {sender : Address} {id : Nat} {s1 : ContractState}
    (h : rejectDebt s sender id = Except.ok s1) :
    (s.pendingDebts id).existsFlag = true ∧
    (sender = (s.pendingDebts id).debtor ∨ sender = (s.pendingDebts id).creditor) ∧
    s1 = emitEvent { s with pendingDebts := Function.update s.pendingDebts id emptyPending }
      (Event.DebtRejected id) := by
  simp only [rejectDebt] at h
  split_ifs at h with h1 h2
  injection h with h
  exact ⟨h1, h2, h.symm⟩

theorem settleDebt_ok {s : ContractState} {sender token creditor : Address}
    {tr : TransferResult} {s1 : ContractState}
    (h : settleDebt s sender token creditor tr = Except.ok s1) :
    s.debts (token, sender, creditor) ≠ 0 ∧ tr ≠ TransferResult.reverts ∧
    s1 = emitEvent (settleIntermediate s sender token creditor)
      (Event.DebtSettled sender creditor token (s.debts (token, sender, creditor))) := by
  simp only [settleDebt] at h
  split_ifs at h with h1
  cases tr with
  | reverts => exact Except.noConfusion h
  | success =>
    injection h with h
    exact ⟨h1, by decide, h.symm⟩
  | returnsFalse =>
    injection h with h
    exact ⟨h1, by decide, h.symm⟩

theorem registerUser_ok {s : ContractState} {discordId : String} {walletAddress : Address}
    {s1 : ContractState} (h : registerUser s discordId walletAddress = Except.ok s1) :
    discordId ≠ "" ∧ walletAddress ≠ 0 ∧ s.discordToWallet discordId = 0 ∧
    s.walletToDiscord walletAddress = "" ∧
    s1 = emitEvent
      { s with
        discordToWallet := Function.update s.discordToWallet discordId walletAddress
        walletToDiscord := Function.update s.walletToDiscord walletAddress discordId }
      (Event.UserRegistered discordId walletAddress) := by
  unfold registerUser at h
  split_ifs at h with h1 h2 h3 h4
  injection h with h
  exact ⟨h1, h2, h3, h4, h.symm⟩

theorem registerUser_ok_of {s : ContractState} {discordId : String} {walletAddress : Address}
    (h1 : discordId ≠ "") (h2 : walletAddress ≠ 0) (h3 : s.discordToWallet discordId = 0)
    (h4 : s.walletToDiscord walletAddress = "") :
    ∃ s1, registerUser s discordId walletAddress = Except.ok s1 := by
  unfold registerUser
  rw [if_neg h1, if_neg h2, if_pos h3, if_pos h4]
  exact ⟨_, rfl⟩

theorem execOp_of_ok {s : ContractState} {op : Op} {s1 : ContractState}
    (h : applyOp s op = Except.ok s1) : execOp s op = s1 := by
  unfold execOp
  rw [h]

theorem execOp_of_error {s : ContractState} {op : Op} {e : Err}
    (h : applyOp s op = Except.error e) : execOp s op = s := by
  unfold execOp
  rw [h]

end BillTheAccountant

/-! ### Claim theorems and witnesses -/

namespace BillTheAccountant

theorem addDebt_step_diff {s s2 : ContractState} {token x y : Address} {amt : Nat}
    {memo : String} {ts : Nat}
    (h : addDebt s token x y amt memo ts = Except.ok s2)
    (hinv : s.debts (token, x, y) = 0 ∨ s.debts (token, y, x) = 0) :
    (s2.debts (token, x, y) = 0 ∨ s2.debts (token, y, x) = 0) ∧
    ((s2.debts (token, x, y) : Int) - (s2.debts (token, y, x) : Int) =
      (s.debts (token, x, y) : Int) - (s.debts (token, y, x) : Int) + amt) := by
  obtain ⟨hxy, hpos⟩ := addDebt_ok_conditions h
  have hkey : ((token, x, y) : DebtKey) ≠ (token, y, x) := by
    intro hk
    exact hxy (congrArg Prod.fst (congrArg Prod.snd hk))
  rcases addDebt_ok_debts h with ⟨hle, hupd⟩ | ⟨hlt, hupd⟩
  · have h2xy : s2.debts (token, x, y) = s.debts (token, x, y) := by
      rw [hupd, Function.update_noteq hkey]
    have h2yx : s2.debts (token, y, x) = s.debts (token, y, x) - amt := by
      rw [hupd, Function.update_same]
    have hzero : s.debts (token, x, y) = 0 := by
      rcases hinv with h0 | h0
      · exact h0
      · omega
    exact ⟨Or.inl (by rw [h2xy, hzero]), by rw [h2xy, h2yx]; omega⟩
  · have h2yx : s2.debts (token, y, x) = 0 := by
      rw [hupd, Function.update_noteq hkey.symm, Function.update_same]
    have h2xy : s2.debts (token, x, y) =
        s.debts (token, x, y) + (amt - s.debts (token, y, x)) := by
      rw [hupd, Function.update_same]
    exact ⟨Or.inr h2yx, by rw [h2xy, h2yx]; omega⟩

theorem applyDebtSeq_invariant {token a b : Address}
    (calls : List (Bool × Nat)) :
    ∀ s s1 : ContractState, applyDebtSeq s token a b calls = Except.ok s1 →
      (s.debts (token, a, b) = 0 ∨ s.debts (token, b, a) = 0) →
      (s1.debts (token, a, b) = 0 ∨ s1.debts (token, b, a) = 0) ∧
      ((s1.debts (token, a, b) : Int) - (s1.debts (token, b, a) : Int) =
        (s.debts (token, a, b) : Int) - (s.debts (token, b, a) : Int) + signedSum calls) := by
  induction calls with
  | nil =>
    intro s s1 h hinv
    simp only [applyDebtSeq] at h
    injection h with h
    subst h
    exact ⟨hinv, by simp [signedSum]⟩
  | cons head rest ih =>
    intro s s1 h hinv
    obtain ⟨dir, amt⟩ := head
    cases dir with
    | true =>
      simp only [applyDebtSeq, cond_true] at h
      cases hstep : addDebt s token a b amt "" 0 with
      | error e => rw [hstep] at h; exact Except.noConfusion h
      | ok s2 =>
        rw [hstep] at h
        obtain ⟨hinv2, hdiff⟩ := addDebt_step_diff hstep hinv
        obtain ⟨hinv1, hdiff2⟩ := ih s2 s1 h hinv2
        refine ⟨hinv1, ?_⟩
        simp only [signedSum, cond_true]
        omega
    | false =>
      simp only [applyDebtSeq, cond_false] at h
      cases hstep : addDebt s token b a amt "" 0 with
      | error e => rw [hstep] at h; exact Except.noConfusion h
      | ok s2 =>
        rw [hstep] at h
        obtain ⟨hinv2, hdiff⟩ := addDebt_step_diff hstep (Or.symm hinv)
        obtain ⟨hinv1, hdiff2⟩ := ih s2 s1 h (Or.symm hinv2)
        refine ⟨hinv1, ?_⟩
        simp only [signedSum, cond_false]
        omega

/-- C2: Netting conservation — for every fixed asset and pair `(a, b)` and
every finite sequence of successful `applyDebt` calls between them starting
from the all-zero state, after each call at most one of the two opposite
entries is non-zero, and their difference equals the signed sum of all
applied amounts (a-owes-b positive, b-owes-a negative). -/
theorem netting_conservation {token a b : Address}
    {calls : List (Bool × Nat)} {s1 : ContractState}
    (h : applyDebtSeq initialState token a b calls = Except.ok s1) :
    (s1.debts (token, a, b) = 0 ∨ s1.debts (token, b, a) = 0) ∧
    ((s1.debts (token, a, b) : Int) - (s1.debts (token, b, a) : Int) = signedSum calls) := by
  obtain ⟨hinv, hdiff⟩ := applyDebtSeq_invariant calls initialState s1 h (Or.inl rfl)
  refine ⟨hinv, ?_⟩
  rw [hdiff]
  show ((0 : Nat) : Int) - ((0 : Nat) : Int) + signedSum calls = signedSum calls
  omega

/-- Witness for C2 at the spec's concrete example prefix. -/
theorem netting_conservation_witness :
    applyDebtSeq initialState 0 1 2 [(true, 100), (false, 20)] =
      Except.ok (runDebtSeq 0 1 2 [(true, 100), (false, 20)]) ∧
    ((runDebtSeq 0 1 2 [(true, 100), (false, 20)]).debts (0, 1, 2) = 0 ∨
      (runDebtSeq 0 1 2 [(true, 100), (false, 20)]).debts (0, 2, 1) = 0) ∧
    ((runDebtSeq 0 1 2 [(true, 100), (false, 20)]).debts (0, 1, 2) : Int) -
      ((runDebtSeq 0 1 2 [(true, 100), (false, 20)]).debts (0, 2, 1) : Int) =
      signedSum [(true, 100), (false, 20)] := by
  have h := @netting_conservation 0 1 2 [(true, 100), (false, 20)]
    (runDebtSeq 0 1 2 [(true, 100), (false, 20)]) rfl
  exact ⟨rfl, h.1, h.2⟩

/-- C1: a successful `applyDebt(asset, debtor, creditor, amount, memo)`
call with `debtor ≠ creditor` and `amount > 0` nets against the opposite
entry: if `opposite ≥ amount` it decrements the opposite entry and leaves
the direct entry unchanged, otherwise it zeroes the opposite entry and
increases the direct entry by `amount - opposite`; the emitted `DebtAdded`
event carries the originally-given debtor, creditor and gross amount.  The
spec's four-step example between accounts 1 and 2 evaluates as stated. -/
theorem applyDebt_netting {s : ContractState} {token debtor creditor : Address}
    {amount : Nat} {memo : String} {ts : Nat} {s1 : ContractState}
    (hdc : debtor ≠ creditor) (hpos : 0 < amount)
    (h : addDebt s token debtor creditor amount memo ts = Except.ok s1) :
    ((amount ≤ s.debts (token, creditor, debtor) →
        s1.debts (token, creditor, debtor) = s.debts (token, creditor, debtor) - amount ∧
        s1.debts (token, debtor, creditor) = s.debts (token, debtor, creditor)) ∧
      (s.debts (token, creditor, debtor) < amount →
        s1.debts (token, creditor, debtor) = 0 ∧
        s1.debts (token, debtor, creditor) =
          s.debts (token, debtor, creditor) + (amount - s.debts (token, creditor, debtor))) ∧
      s1.events = s.events ++
        [Event.DebtAdded (s.debtActionCounter + 1) debtor creditor token amount memo ts]) ∧
    ((applyDebtSeq initialState 0 1 2 [(true, 100), (false, 20)]).map
        (fun t => (t.debts (0, 1, 2), t.debts (0, 2, 1))) = Except.ok (80, 0)) ∧
    ((applyDebtSeq initialState 0 1 2 [(true, 100), (false, 20), (true, 80)]).map
        (fun t => (t.debts (0, 1, 2), t.debts (0, 2, 1))) = Except.ok (160, 0)) ∧
    ((applyDebtSeq initialState 0 1 2
        [(true, 100), (false, 20), (true, 80), (false, 200)]).map
        (fun t => (t.debts (0, 1, 2), t.debts (0, 2, 1))) = Except.ok (0, 40)) := by
  have hkey : ((token, debtor, creditor) : DebtKey) ≠ (token, creditor, debtor) := by
    intro hk
    exact hdc (congrArg Prod.fst (congrArg Prod.snd hk))
  refine ⟨⟨?_, ?_, (addDebt_ok_frame h).2.2.2.2.2⟩, by rfl, by rfl, by rfl⟩
  · intro hle
    rcases addDebt_ok_debts h with ⟨_, hupd⟩ | ⟨hlt, _⟩
    · rw [hupd]
      exact ⟨Function.update_same _ _ _, Function.update_noteq hkey _ _⟩
    · omega
  · intro hlt
    rcases addDebt_ok_debts h with ⟨hle, _⟩ | ⟨_, hupd⟩
    · omega
    · rw [hupd]
      refine ⟨?_, Function.update_same _ _ _⟩
      rw [Function.update_noteq hkey.symm, Function.update_same]

/-- Witness for C1: a concrete successful call from the all-zero state. -/
theorem applyDebt_netting_witness :
    (1 : Address) ≠ 2 ∧ 0 < 5 ∧
    addDebt initialState 0 1 2 5 "" 0 = Except.ok (runAddDebt initialState 0 1 2 5 "" 0) ∧
    (runAddDebt initialState 0 1 2 5 "" 0).events =
      initialState.events ++ [Event.DebtAdded 1 1 2 0 5 "" 0] := by
  refine ⟨by decide, by decide, rfl, ?_⟩
  exact (@applyDebt_netting initialState 0 1 2 5 "" 0
    (runAddDebt initialState 0 1 2 5 "" 0) (by decide) (by decide) rfl).1.2.2

theorem resolutionCount_append (id : Nat) (es1 es2 : List Event) :
    resolutionCount id (es1 ++ es2) = resolutionCount id es1 + resolutionCount id es2 := by
  simp [resolutionCount, List.filter_append]

theorem resolutionCount_confirmed (j pid : Nat) :
    resolutionCount j [Event.DebtConfirmed pid] = if pid = j then 1 else 0 := by
  by_cases h : pid = j
  · simp [resolutionCount, isResolutionFor, List.filter, h]
  · have hb : (pid == j) = false := beq_eq_false_iff_ne.mpr h
    simp [resolutionCount, isResolutionFor, List.filter, hb, h]

theorem resolutionCount_rejected (j pid : Nat) :
    resolutionCount j [Event.DebtRejected pid] = if pid = j then 1 else 0 := by
  by_cases h : pid = j
  · simp [resolutionCount, isResolutionFor, List.filter, h]
  · have hb : (pid == j) = false := beq_eq_false_iff_ne.mpr h
    simp [resolutionCount, isResolutionFor, List.filter, hb, h]

theorem resolutionCount_debtAdded (j : Nat) (aid : Nat) (d c t : Address)
    (a : Nat) (m : String) (ts : Nat) :
    resolutionCount j [Event.DebtAdded aid d c t a m ts] = 0 := by
  simp [resolutionCount, isResolutionFor, List.filter]

theorem resolutionCount_debtProposed (j : Nat) (pid : Nat) (c d t : Address)
    (a : Nat) (m : String) :
    resolutionCount j [Event.DebtProposed pid c d t a m] = 0 := by
  simp [resolutionCount, isResolutionFor, List.filter]

theorem resolutionCount_debtSettled (j : Nat) (d c t : Address) (a : Nat) :
    resolutionCount j [Event.DebtSettled d c t a] = 0 := by
  simp [resolutionCount, isResolutionFor, List.filter]

theorem resolutionCount_userRegistered (j : Nat) (d : String) (w : Address) :
    resolutionCount j [Event.UserRegistered d w] = 0 := by
  simp [resolutionCount, isResolutionFor, List.filter]

theorem proposalInv_initial : ProposalInv initialState := by
  intro id
  refine ⟨by simp [resolutionCount, initialState], ?_, ?_⟩
  · intro h
    simp [initialState, emptyPending] at h
  · intro _
    exact ⟨rfl, rfl⟩

theorem proposalInv_execOp {s : ContractState} (op : Op) (hinv : ProposalInv s) :
    ProposalInv (execOp s op) := by
  cases hex : applyOp s op with
  | error e => rw [execOp_of_error hex]; exact hinv
  | ok s1 =>
    rw [execOp_of_ok hex]
    cases op with
    | propose sender token debtor amount memo =>
      obtain ⟨_, _, _, _, _, _, hctr, hpend, hev⟩ := proposeDebt_ok hex
      intro id
      obtain ⟨ha, hb, hc⟩ := hinv id
      have hres : resolutionCount id s1.events = resolutionCount id s.events := by
        rw [hev, resolutionCount_append, resolutionCount_debtProposed]
        simp
      refine ⟨by rw [hres]; exact ha, ?_, ?_⟩
      · intro hex1
        rw [hpend] at hex1
        by_cases hid : id = s.pendingDebtCounter + 1
        · rw [hres]
          subst hid
          exact (hc (Nat.lt_succ_self _)).2
        · rw [Function.update_noteq hid] at hex1
          rw [hres]
          exact hb hex1
      · intro hgt
        rw [hctr] at hgt
        have hid : id ≠ s.pendingDebtCounter + 1 := by omega
        rw [hpend, Function.update_noteq hid, hres]
        exact hc (by omega)
    | confirm sender pid ts =>
      obtain ⟨hexists, _, s2, hadd, hs1⟩ := confirmDebt_ok hex
      obtain ⟨hpendf, hctrf, _, _, _, hevf⟩ := addDebt_ok_frame hadd
      have hple : pid ≤ s.pendingDebtCounter := by
        by_contra hgt
        push_neg at hgt
        have := ((hinv pid).2.2 hgt).1
        rw [this] at hexists
        exact Bool.noConfusion hexists
      have hev1 : s1.events = (s.events ++
          [Event.DebtAdded (s.debtActionCounter + 1) (s.pendingDebts pid).debtor
            (s.pendingDebts pid).creditor (s.pendingDebts pid).token
            (s.pendingDebts pid).amount (s.pendingDebts pid).memo ts]) ++
          [Event.DebtConfirmed pid] := by
        rw [hs1]
        simp [emitEvent, hevf]
      have hpend1 : s1.pendingDebts = Function.update s.pendingDebts pid emptyPending := by
        rw [hs1]
        simp [emitEvent, hpendf]
      have hctr1 : s1.pendingDebtCounter = s.pendingDebtCounter := by
        rw [hs1]
        simp [emitEvent, hctrf]
      have hres : ∀ j, resolutionCount j s1.events =
          resolutionCount j s.events + (if pid = j then 1 else 0) := by
        intro j
        rw [hev1, resolutionCount_append, resolutionCount_append,
          resolutionCount_debtAdded, resolutionCount_confirmed]
        simp
      intro id
      obtain ⟨ha, hb, hc⟩ := hinv id
      have hcnt0 : resolutionCount pid s.events = 0 := (hinv pid).2.1 hexists
      refine ⟨?_, ?_, ?_⟩
      · rw [hres]
        by_cases hid : pid = id
        · subst hid
          rw [hcnt0]
          simp
        · rw [if_neg hid]
          omega
      · intro hex1
        rw [hpend1] at hex1
        by_cases hid : id = pid
        · subst hid
          rw [Function.update_same] at hex1
          exact Bool.noConfusion hex1
        · rw [Function.update_noteq hid] at hex1
          rw [hres, if_neg (fun hh => hid hh.symm)]
          exact hb hex1
      · intro hgt
        rw [hctr1] at hgt
        have hid : id ≠ pid := by omega
        rw [hpend1, Function.update_noteq hid, hres, if_neg (fun hh => hid hh.symm)]
        obtain ⟨hc1, hc2⟩ := hc hgt
        exact ⟨hc1, by omega⟩
    | reject sender pid =>
      obtain ⟨hexists, _, hs1⟩ := rejectDebt_ok hex
      have hple : pid ≤ s.pendingDebtCounter := by
        by_contra hgt
        push_neg at hgt
        have := ((hinv pid).2.2 hgt).1
        rw [this] at hexists
        exact Bool.noConfusion hexists
      have hev1 : s1.events = s.events ++ [Event.DebtRejected pid] := by
        rw [hs1]
        simp [emitEvent]
      have hpend1 : s1.pendingDebts = Function.update s.pendingDebts pid emptyPending := by
        rw [hs1]
        simp [emitEvent]
      have hctr1 : s1.pendingDebtCounter = s.pendingDebtCounter := by
        rw [hs1]
        simp [emitEvent]
      have hres : ∀ j, resolutionCount j s1.events =
          resolutionCount j s.events + (if pid = j then 1 else 0) := by
        intro j
        rw [hev1, resolutionCount_append, resolutionCount_rejected]
      intro id
      obtain ⟨ha, hb, hc⟩ := hinv id
      have hcnt0 : resolutionCount pid s.events = 0 := (hinv pid).2.1 hexists
      refine ⟨?_, ?_, ?_⟩
      · rw [hres]
        by_cases hid : pid = id
        · subst hid
          rw [hcnt0]
          simp
        · rw [if_neg hid]
          omega
      · intro hex1
        rw [hpend1] at hex1
        by_cases hid : id = pid
        · subst hid
          rw [Function.update_same] at hex1
          exact Bool.noConfusion hex1
        · rw [Function.update_noteq hid] at hex1
          rw [hres, if_neg (fun hh => hid hh.symm)]
          exact hb hex1
      · intro hgt
        rw [hctr1] at hgt
        have hid : id ≠ pid := by omega
        rw [hpend1, Function.update_noteq hid, hres, if_neg (fun hh => hid hh.symm)]
        obtain ⟨hc1, hc2⟩ := hc hgt
        exact ⟨hc1, by omega⟩
    | settle sender token creditor tr =>
      obtain ⟨_, _, hs1⟩ := settleDebt_ok hex
      intro id
      obtain ⟨ha, hb, hc⟩ := hinv id
      have hres : resolutionCount id s1.events = resolutionCount id s.events := by
        rw [hs1]
        simp only [emitEvent, settleIntermediate, setDebt]
        rw [resolutionCount_append, resolutionCount_debtSettled]
        simp
      have hpend1 : s1.pendingDebts = s.pendingDebts := by
        rw [hs1]
        simp [emitEvent, settleIntermediate, setDebt]
      have hctr1 : s1.pendingDebtCounter = s.pendingDebtCounter := by
        rw [hs1]
        simp [emitEvent, settleIntermediate, setDebt]
      rw [hres, hpend1, hctr1]
      exact ⟨ha, hb, hc⟩
    | register discordId walletAddress =>
      obtain ⟨_, _, _, _, hs1⟩ := registerUser_ok hex
      intro id
      obtain ⟨ha, hb, hc⟩ := hinv id
      have hres : resolutionCount id s1.events = resolutionCount id s.events := by
        rw [hs1]
        simp only [emitEvent]
        rw [resolutionCount_append, resolutionCount_userRegistered]
        simp
      have hpend1 : s1.pendingDebts = s.pendingDebts := by
        rw [hs1]
        simp [emitEvent]
      have hctr1 : s1.pendingDebtCounter = s.pendingDebtCounter := by
        rw [hs1]
        simp [emitEvent]
      rw [hres, hpend1, hctr1]
      exact ⟨ha, hb, hc⟩

theorem proposalInv_execOps (ops : List Op) :
    ∀ s : ContractState, ProposalInv s → ProposalInv (execOps s ops) := by
  induction ops with
  | nil => intro s hinv; exact hinv
  | cons op rest ih =>
    intro s hinv
    exact ih (execOp s op) (proposalInv_execOp op hinv)

theorem confirmDebt_notFound {s : ContractState} {c : Address} {id ts : Nat}
    (h : (s.pendingDebts id).existsFlag = false) :
    confirmDebt s c id ts = Except.error Err.NotFound := by
  simp [confirmDebt, h]

theorem rejectDebt_notFound {s : ContractState} {c : Address} {id : Nat}
    (h : (s.pendingDebts id).existsFlag = false) :
    rejectDebt s c id = Except.error Err.NotFound := by
  simp [rejectDebt, h]

/-- C3: proposal exclusivity — starting from deployment, at most one
resolution event (`DebtConfirmed` or `DebtRejected`) is ever recorded per
proposal id over any sequence of public operations, and after a successful
confirm or reject of an id every further confirm or reject of that id
fails with `NotFound` because the pending entry has been deleted. -/
theorem proposal_exclusivity :
    (∀ ops id, resolutionCount id (execOps initialState ops).events ≤ 1) ∧
    (∀ (s : ContractState) (sender : Address) (id ts : Nat) (s1 : ContractState),
      confirmDebt s sender id ts = Except.ok s1 →
      ∀ (c : Address) (ts2 : Nat),
        confirmDebt s1 c id ts2 = Except.error Err.NotFound ∧
        rejectDebt s1 c id = Except.error Err.NotFound) ∧
    (∀ (s : ContractState) (sender : Address) (id : Nat) (s1 : ContractState),
      rejectDebt s sender id = Except.ok s1 →
      ∀ (c : Address) (ts2 : Nat),
        confirmDebt s1 c id ts2 = Except.error Err.NotFound ∧
        rejectDebt s1 c id = Except.error Err.NotFound) := by
  refine ⟨?_, ?_, ?_⟩
  · intro ops id
    exact (proposalInv_execOps ops initialState proposalInv_initial id).1
  · intro s sender id ts s1 h c ts2
    obtain ⟨_, _, s2, _, hs1⟩ := confirmDebt_ok h
    have hpd : (s1.pendingDebts id).existsFlag = false := by
      rw [hs1]
      simp [emitEvent, emptyPending]
    exact ⟨confirmDebt_notFound hpd, rejectDebt_notFound hpd⟩
  · intro s sender id s1 h c ts2
    obtain ⟨_, _, hs1⟩ := rejectDebt_ok h
    have hpd : (s1.pendingDebts id).existsFlag = false := by
      rw [hs1]
      simp [emitEvent, emptyPending]
    exact ⟨confirmDebt_notFound hpd, rejectDebt_notFound hpd⟩

/-- Witness for C3: a resolved concrete proposal cannot be resolved again. -/
theorem proposal_exclusivity_witness :
    resolutionCount 1 (execOps initialState
      [Op.propose 1 0 2 5 "", Op.confirm 2 1 0]).events ≤ 1 ∧
    confirmDebt (execOps initialState [Op.propose 1 0 2 5 "", Op.confirm 2 1 0]) 3 1 7 =
      Except.error Err.NotFound ∧
    rejectDebt (execOps initialState [Op.propose 1 0 2 5 "", Op.confirm 2 1 0]) 3 1 =
      Except.error Err.NotFound := by
  have h2 := proposal_exclusivity.2.1 (execOps initialState [Op.propose 1 0 2 5 ""]) 2 1 0
    (execOp (execOps initialState [Op.propose 1 0 2 5 ""]) (Op.confirm 2 1 0)) rfl 3 7
  exact ⟨proposal_exclusivity.1 [Op.propose 1 0 2 5 "", Op.confirm 2 1 0] 1, h2.1, h2.2⟩

theorem rejectDebt_ok_of {s : ContractState} {sender : Address} {id : Nat}
    (h1 : (s.pendingDebts id).existsFlag = true)
    (h2 : sender = (s.pendingDebts id).debtor ∨ sender = (s.pendingDebts id).creditor) :
    ∃ s2, rejectDebt s sender id = Except.ok s2 := by
  refine ⟨emitEvent
    { s with pendingDebts := Function.update s.pendingDebts id emptyPending }
    (Event.DebtRejected id), ?_⟩
  simp only [rejectDebt]
  rw [if_pos h1, if_pos h2]

/-- C7: confirming an open proposal as any caller other than its debtor
always fails `Unauthorized`, and the reverted transaction leaves the whole
state (ledger entries and the still-open proposal) unchanged. -/
theorem unauthorized_confirm {s : ContractState} {id ts : Nat} {c : Address}
    (hopen : (s.pendingDebts id).existsFlag = true)
    (hne : c ≠ (s.pendingDebts id).debtor) :
    confirmDebt s c id ts = Except.error Err.Unauthorized ∧
    execOp s (Op.confirm c id ts) = s := by
  have h1 : confirmDebt s c id ts = Except.error Err.Unauthorized := by
    simp [confirmDebt, hopen, hne]
  exact ⟨h1, execOp_of_error h1⟩

/-- Witness for C7 on a concrete open proposal. -/
theorem unauthorized_confirm_witness :
    ((execOps initialState [Op.propose 1 0 2 5 ""]).pendingDebts 1).existsFlag = true ∧
    (3 : Address) ≠ ((execOps initialState [Op.propose 1 0 2 5 ""]).pendingDebts 1).debtor ∧
    confirmDebt (execOps initialState [Op.propose 1 0 2 5 ""]) 3 1 0 =
      Except.error Err.Unauthorized ∧
    execOp (execOps initialState [Op.propose 1 0 2 5 ""]) (Op.confirm 3 1 0) =
      execOps initialState [Op.propose 1 0 2 5 ""] := by
  have h := @unauthorized_confirm (execOps initialState [Op.propose 1 0 2 5 ""]) 1 0 3
    (by rfl) (by decide)
  exact ⟨rfl, by decide, h.1, h.2⟩

/-- C8: `propose` performs no positivity check, so a zero-amount proposal
succeeds, allocates the next id and stores an `Open` entry; confirming it
fails with `InvalidOperands` (the netting engine's `amount > 0`
precondition) leaving the proposal open and the ledger unchanged, while
rejecting it succeeds. -/
theorem deferred_amount_validation {s : ContractState} {sender token debtor : Address}
    {memo : String} {ts : Nat}
    (hne : debtor ≠ sender) (hcap : s.pendingDebtCounter + 1 < uint256Bound) :
    ∃ s1, proposeDebt s sender token debtor 0 memo = Except.ok s1 ∧
      s1.pendingDebtCounter = s.pendingDebtCounter + 1 ∧
      s1.pendingDebts (s.pendingDebtCounter + 1) =
        { creditor := sender, debtor := debtor, token := token,
          amount := 0, memo := memo, existsFlag := true } ∧
      (∀ k, s1.debts k = s.debts k) ∧
      confirmDebt s1 debtor (s.pendingDebtCounter + 1) ts = Except.error Err.InvalidOperands ∧
      execOp s1 (Op.confirm debtor (s.pendingDebtCounter + 1) ts) = s1 ∧
      ∃ s2, rejectDebt s1 debtor (s.pendingDebtCounter + 1) = Except.ok s2 := by
  have hprop : proposeDebt s sender token debtor 0 memo = Except.ok (emitEvent
      { s with
        pendingDebtCounter := s.pendingDebtCounter + 1
        pendingDebts := Function.update s.pendingDebts (s.pendingDebtCounter + 1)
          { creditor := sender, debtor := debtor, token := token,
            amount := 0, memo := memo, existsFlag := true } }
      (Event.DebtProposed (s.pendingDebtCounter + 1) sender debtor token 0 memo)) := by
    unfold proposeDebt
    rw [if_neg hne, if_pos hcap]
  refine ⟨_, hprop, ?_, ?_, ?_, ?_, ?_, ?_⟩
  · simp [emitEvent]
  · simp [emitEvent, Function.update_same]
  · intro k
    simp [emitEvent]
  · have haddz : ∀ sz : ContractState, addDebt sz token debtor sender 0 memo ts =
        Except.error Err.InvalidOperands := by
      intro sz
      unfold addDebt
      rw [if_neg hne, if_pos rfl]
    simp [confirmDebt, emitEvent, Function.update_same, haddz, Except.map]
  · have haddz : ∀ sz : ContractState, addDebt sz token debtor sender 0 memo ts =
        Except.error Err.InvalidOperands := by
      intro sz
      unfold addDebt
      rw [if_neg hne, if_pos rfl]
    refine execOp_of_error (show _ = Except.error Err.InvalidOperands from ?_)
    simp [applyOp, confirmDebt, emitEvent, Function.update_same, haddz, Except.map]
  · exact rejectDebt_ok_of (by simp [emitEvent, Function.update_same])
      (Or.inl (by simp [emitEvent, Function.update_same]))

/-- Witness for C8: a concrete zero-amount proposal from deployment. -/
theorem deferred_amount_validation_witness :
    (2 : Address) ≠ 1 ∧ initialState.pendingDebtCounter + 1 < uint256Bound ∧
    ∃ s1, proposeDebt initialState 1 0 2 0 "" = Except.ok s1 ∧
      s1.pendingDebtCounter = initialState.pendingDebtCounter + 1 ∧
      s1.pendingDebts (initialState.pendingDebtCounter + 1) =
        { creditor := 1, debtor := 2, token := 0,
          amount := 0, memo := "", existsFlag := true } ∧
      (∀ k, s1.debts k = initialState.debts k) ∧
      confirmDebt s1 2 (initialState.pendingDebtCounter + 1) 0 =
        Except.error Err.InvalidOperands ∧
      execOp s1 (Op.confirm 2 (initialState.pendingDebtCounter + 1) 0) = s1 ∧
      ∃ s2, rejectDebt s1 2 (initialState.pendingDebtCounter + 1) = Except.ok s2 :=
  ⟨by decide, by decide,
    @deferred_amount_validation initialState 1 0 2 "" 0 (by decide) (by decide)⟩

theorem addDebt_map_debts_congr {s s0 : ContractState} (hd : s.debts = s0.debts)
    (hc : s.debtActionCounter = s0.debtActionCounter) (token x y : Address)
    (amt : Nat) (memo : String) (ts : Nat) :
    (addDebt s token x y amt memo ts).map ContractState.debts
      = (addDebt s0 token x y amt memo ts).map ContractState.debts := by
  simp only [addDebt, finishAddDebt, setDebt, emitEvent, hd, hc]
  split_ifs <;> (try simp_all [Except.map]) <;> omega

/-- C6: round-trip — a `propose` followed by a successful `confirm` by the
debtor yields exactly the ledger entries of calling `applyDebt` directly
with the same parameters from the same starting state, and a `propose`
followed by any successful `reject` leaves every ledger entry at its value
before the proposal. -/
theorem propose_confirm_roundtrip {s : ContractState} {sender token debtor : Address}
    {amount : Nat} {memo : String} {ts : Nat} {s1 : ContractState}
    (hp : proposeDebt s sender token debtor amount memo = Except.ok s1) :
    (∀ s2, confirmDebt s1 debtor (s.pendingDebtCounter + 1) ts = Except.ok s2 →
      ∃ s3, addDebt s token debtor sender amount memo ts = Except.ok s3 ∧
        ∀ k, s2.debts k = s3.debts k) ∧
    (∀ (caller : Address) (s4 : ContractState),
      rejectDebt s1 caller (s.pendingDebtCounter + 1) = Except.ok s4 →
      ∀ k, s4.debts k = s.debts k) := by
  obtain ⟨hne, hcap, hdeq, hceq, _, _, hctr, hpend, hev⟩ := proposeDebt_ok hp
  have hpd : s1.pendingDebts (s.pendingDebtCounter + 1) =
      { creditor := sender, debtor := debtor, token := token,
        amount := amount, memo := memo, existsFlag := true } := by
    rw [hpend, Function.update_same]
  constructor
  · intro s2 hconf
    obtain ⟨_, _, sA, haddA, hs2⟩ := confirmDebt_ok hconf
    have haddA2 : addDebt s1 token debtor sender amount memo ts = Except.ok sA := by
      rw [hpd] at haddA
      exact haddA
    have hcongr := addDebt_map_debts_congr hdeq hceq token debtor sender amount memo ts
    rw [haddA2] at hcongr
    cases hadd : addDebt s token debtor sender amount memo ts with
    | error e =>
      rw [hadd] at hcongr
      simp [Except.map] at hcongr
    | ok s3 =>
      rw [hadd] at hcongr
      simp only [Except.map, Except.ok.injEq] at hcongr
      refine ⟨s3, rfl, ?_⟩
      intro k
      rw [hs2]
      simp only [emitEvent]
      rw [hcongr]
  · intro caller s4 hrej
    obtain ⟨_, _, hs4⟩ := rejectDebt_ok hrej
    intro k
    rw [hs4]
    simp only [emitEvent]
    rw [hdeq]

/-- Witness for C6 on a concrete propose-then-confirm run. -/
theorem propose_confirm_roundtrip_witness :
    proposeDebt initialState 2 0 1 30 "" =
      Except.ok (execOp initialState (Op.propose 2 0 1 30 "")) ∧
    confirmDebt (execOp initialState (Op.propose 2 0 1 30 "")) 1
      (initialState.pendingDebtCounter + 1) 0 =
      Except.ok (execOp (execOp initialState (Op.propose 2 0 1 30 ""))
        (Op.confirm 1 1 0)) ∧
    ∃ s3, addDebt initialState 0 1 2 30 "" 0 = Except.ok s3 ∧
      ∀ k, (execOp (execOp initialState (Op.propose 2 0 1 30 ""))
        (Op.confirm 1 1 0)).debts k = s3.debts k := by
  refine ⟨rfl, rfl, ?_⟩
  exact (@propose_confirm_roundtrip initialState 2 0 1 30 "" 0
    (execOp initialState (Op.propose 2 0 1 30 "")) rfl).1
    (execOp (execOp initialState (Op.propose 2 0 1 30 "")) (Op.confirm 1 1 0)) rfl

/-- C4 (code bug): `settleDebt` ignores the boolean that
`IERC20.transferFrom` returns, so when the token signals failure by
returning `false` instead of reverting, the settlement still commits: the
entry stays zeroed and a `DebtSettled` event is emitted even though no
value moved.  Evaluated here at a concrete state with a confirmed debt of
50 from account 1 to account 2. -/
theorem settleDebt_unchecked_return_value :
    cexState.debts (0, 1, 2) = 50 ∧
    (execOp cexState (Op.settle 1 0 2 TransferResult.returnsFalse)).debts (0, 1, 2) = 0 ∧
    (execOp cexState (Op.settle 1 0 2 TransferResult.returnsFalse)).events =
      cexState.events ++ [Event.DebtSettled 1 2 0 50] :=
  ⟨rfl, rfl, rfl⟩

/-- Counterexample to C5 as stated: the settlement operation succeeds even
though the external transfer did not succeed (the token returned `false`),
because the source never checks the returned boolean. -/
theorem settle_succeeds_without_transfer_success :
    cexState.debts (0, 1, 2) = 50 ∧
    settleDebt cexState 1 0 2 TransferResult.returnsFalse =
      Except.ok (emitEvent (settleIntermediate cexState 1 0 2)
        (Event.DebtSettled 1 2 0 50)) :=
  ⟨rfl, rfl⟩

/-- C5 (amended): `settle` fails with `NothingToSettle` on a zero entry;
on an entry `v > 0` it zeroes the entry strictly before invoking the
external transfer (the intermediate state the transfer executes in shows a
zero balance), fails with full rollback if the transfer call reverts, and
otherwise — including when the transfer merely returns `false` — succeeds
with the entry zeroed and exactly one `DebtSettled{debtor, creditor,
asset, v}` event appended. -/
theorem settle_effect {s : ContractState} {sender token creditor : Address} {v : Nat}
    (hv : s.debts (token, sender, creditor) = v) :
    (v = 0 → ∀ tr, settleDebt s sender token creditor tr =
      Except.error Err.NothingToSettle) ∧
    (0 < v →
      (settleIntermediate s sender token creditor).debts (token, sender, creditor) = 0 ∧
      settleDebt s sender token creditor TransferResult.reverts =
        Except.error Err.TransferFailed ∧
      execOp s (Op.settle sender token creditor TransferResult.reverts) = s ∧
      (∀ tr, tr ≠ TransferResult.reverts →
        settleDebt s sender token creditor tr = Except.ok
          (emitEvent (settleIntermediate s sender token creditor)
            (Event.DebtSettled sender creditor token v)) ∧
        (emitEvent (settleIntermediate s sender token creditor)
          (Event.DebtSettled sender creditor token v)).debts (token, sender, creditor) = 0 ∧
        (emitEvent (settleIntermediate s sender token creditor)
          (Event.DebtSettled sender creditor token v)).events =
          s.events ++ [Event.DebtSettled sender creditor token v])) := by
  subst hv
  refine ⟨?_, ?_⟩
  · intro h0 tr
    simp [settleDebt, h0]
  · intro hpos
    have hne0 : s.debts (token, sender, creditor) ≠ 0 := Nat.pos_iff_ne_zero.mp hpos
    have hzero : (settleIntermediate s sender token creditor).debts
        (token, sender, creditor) = 0 := by
      simp [settleIntermediate, setDebt, Function.update_same]
    have hrev : settleDebt s sender token creditor TransferResult.reverts =
        Except.error Err.TransferFailed := by
      simp [settleDebt, hne0]
    refine ⟨hzero, hrev, execOp_of_error hrev, ?_⟩
    intro tr htr
    refine ⟨?_, hzero, by simp [emitEvent, settleIntermediate, setDebt]⟩
    cases tr with
    | reverts => exact absurd rfl htr
    | success => simp [settleDebt, hne0]
    | returnsFalse => simp [settleDebt, hne0]

/-- Witness for C5 at the concrete state with entry 50. -/
theorem settle_effect_witness :
    cexState.debts (0, 1, 2) = 50 ∧ 0 < 50 ∧
    settleDebt cexState 1 0 2 TransferResult.reverts = Except.error Err.TransferFailed ∧
    settleDebt cexState 1 0 2 TransferResult.success =
      Except.ok (emitEvent (settleIntermediate cexState 1 0 2)
        (Event.DebtSettled 1 2 0 50)) := by
  have h := (@settle_effect cexState 1 0 2 50 rfl).2 (by decide)
  exact ⟨rfl, by decide, h.2.1, (h.2.2.2 TransferResult.success (by decide)).1⟩

theorem stillOpenReplay_eq (E : List Event) (id : Nat) :
    stillOpenReplay E id = !(isDebtResolved E id) := by
  induction E with
  | nil => rfl
  | cons e rest ih =>
    cases e with
    | DebtConfirmed i =>
      by_cases hi : i = id
      · have hb : (i == id) = true := beq_iff_eq.mpr hi
        simp [stillOpenReplay, isDebtResolved, List.filter, hb]
      · have hb : (i == id) = false := beq_eq_false_iff_ne.mpr hi
        simp only [stillOpenReplay, isDebtResolved, List.filter, List.all_cons, hb] at ih ⊢
        simpa using ih
    | DebtRejected i =>
      by_cases hi : i = id
      · have hb : (i == id) = true := beq_iff_eq.mpr hi
        simp [stillOpenReplay, isDebtResolved, List.filter, hb]
      · have hb : (i == id) = false := beq_eq_false_iff_ne.mpr hi
        simp only [stillOpenReplay, isDebtResolved, List.filter, List.all_cons, hb] at ih ⊢
        simpa using ih
    | DebtAdded a b c d e f g =>
      simp only [stillOpenReplay, isDebtResolved, List.filter, List.all_cons] at ih ⊢
      simpa using ih
    | DebtSettled a b c d =>
      simp only [stillOpenReplay, isDebtResolved, List.filter, List.all_cons] at ih ⊢
      simpa using ih
    | DebtProposed a b c d e f =>
      simp only [stillOpenReplay, isDebtResolved, List.filter, List.all_cons] at ih ⊢
      simpa using ih
    | UserRegistered a b =>
      simp only [stillOpenReplay, isDebtResolved, List.filter, List.all_cons] at ih ⊢
      simpa using ih

theorem pendingFold_aux (E : List Event) (u1 u2 token : Address) (h12 : u1 ≠ u2) :
    ∀ (l : List Event) (acc : Nat × Nat),
      (((l.filter (relevantBalanceEvent u1 u2 token)).filter fun e =>
        !(isDebtResolved E (proposalIdOf e))).foldl (pendingStep u1 u2) acc) =
      (acc.1 + (l.map fun e =>
        match e with
        | Event.DebtProposed id c d tok amount _ =>
          if d == u1 && c == u2 && tok == token && !(isDebtResolved E id)
          then amount else 0
        | _ => 0).sum,
      acc.2 + (l.map fun e =>
        match e with
        | Event.DebtProposed id c d tok amount _ =>
          if d == u2 && c == u1 && tok == token && !(isDebtResolved E id)
          then amount else 0
        | _ => 0).sum) := by
  intro l
  induction l with
  | nil => intro acc; simp
  | cons e rest ih =>
    intro acc
    cases e with
    | DebtProposed id c d tok amount memo =>
      by_cases hrel :
          relevantBalanceEvent u1 u2 token (Event.DebtProposed id c d tok amount memo) = true
      · by_cases hres : isDebtResolved E id = true
        · rw [List.filter_cons_of_pos hrel,
            List.filter_cons_of_neg (by simp [proposalIdOf, hres])]
          rw [ih acc]
          simp [hres]
        · rw [List.filter_cons_of_pos hrel,
            List.filter_cons_of_pos (by simp [proposalIdOf, hres])]
          rw [List.foldl_cons,
            ih (pendingStep u1 u2 acc (Event.DebtProposed id c d tok amount memo))]
          simp only [relevantBalanceEvent, Bool.and_eq_true, Bool.or_eq_true,
            beq_iff_eq] at hrel
          obtain ⟨hdir, htok⟩ := hrel
          have hresb : isDebtResolved E id = false := Bool.not_eq_true _ |>.mp hres
          rcases hdir with ⟨hc, hd⟩ | ⟨hc, hd⟩
          · have hne : u2 ≠ u1 := Ne.symm h12
            simp [pendingStep, hd, hc, htok, hresb, hne, h12, Prod.ext_iff]
            omega
          · have hne : u2 ≠ u1 := Ne.symm h12
            simp [pendingStep, hd, hc, htok, hresb, hne, h12, Prod.ext_iff]
            omega
      · rw [List.filter_cons_of_neg hrel, ih acc]
        have hcond1 : (d == u1 && c == u2 && (tok == token) &&
            !(isDebtResolved E id)) = false := by
          by_contra hcc
          rw [Bool.not_eq_false] at hcc
          simp only [Bool.and_eq_true, beq_iff_eq] at hcc
          obtain ⟨⟨⟨hd, hc⟩, htok⟩, _⟩ := hcc
          exact hrel (by simp [relevantBalanceEvent, hd, hc, htok])
        have hcond2 : (d == u2 && c == u1 && (tok == token) &&
            !(isDebtResolved E id)) = false := by
          by_contra hcc
          rw [Bool.not_eq_false] at hcc
          simp only [Bool.and_eq_true, beq_iff_eq] at hcc
          obtain ⟨⟨⟨hd, hc⟩, htok⟩, _⟩ := hcc
          exact hrel (by simp [relevantBalanceEvent, hd, hc, htok])
        simp only [List.map_cons, List.sum_cons, hcond1, hcond2,
          Bool.false_eq_true, if_false]
        simp
    | DebtAdded a b c2 d2 e2 f2 g2 =>
      rw [List.filter_cons_of_neg (by simp [relevantBalanceEvent]), ih acc]
      simp
    | DebtSettled a b c2 d2 =>
      rw [List.filter_cons_of_neg (by simp [relevantBalanceEvent]), ih acc]
      simp
    | DebtConfirmed a =>
      rw [List.filter_cons_of_neg (by simp [relevantBalanceEvent]), ih acc]
      simp
    | DebtRejected a =>
      rw [List.filter_cons_of_neg (by simp [relevantBalanceEvent]), ih acc]
      simp
    | UserRegistered a b =>
      rw [List.filter_cons_of_neg (by simp [relevantBalanceEvent]), ih acc]
      simp

/-- C9: the bot's balance view returns the confirmed figures read from the
current ledger entries alongside pending figures obtained by scanning all
`DebtProposed` events of the pair and asset and summing the amounts of the
still-open ones per direction — identical to a full replay of the event
log as described by the spec (`replayPendingTotal`). -/
theorem pending_balance_replay {s : ContractState} {u1 u2 token : Address}
    (h12 : u1 ≠ u2) :
    viewBalance s u1 u2 token =
      ((s.debts (token, u1, u2), s.debts (token, u2, u1)),
       (replayPendingTotal s.events u1 u2 token,
        replayPendingTotal s.events u2 u1 token)) := by
  unfold viewBalance viewBalancePending
  rw [pendingFold_aux s.events u1 u2 token h12 s.events (0, 0)]
  unfold replayPendingTotal
  simp only [stillOpenReplay_eq]
  simp

/-- Witness for C9 at a concrete state with one open proposal. -/
theorem pending_balance_replay_witness :
    (1 : Address) ≠ 2 ∧
    viewBalance (execOps initialState [Op.propose 2 0 1 30 "lunch"]) 1 2 0 =
      (((execOps initialState [Op.propose 2 0 1 30 "lunch"]).debts (0, 1, 2),
        (execOps initialState [Op.propose 2 0 1 30 "lunch"]).debts (0, 2, 1)),
       (replayPendingTotal (execOps initialState
          [Op.propose 2 0 1 30 "lunch"]).events 1 2 0,
        replayPendingTotal (execOps initialState
          [Op.propose 2 0 1 30 "lunch"]).events 2 1 0)) :=
  ⟨by decide, @pending_balance_replay
    (execOps initialState [Op.propose 2 0 1 30 "lunch"]) 1 2 0 (by decide)⟩

theorem regmaps_execOp_preserved (s : ContractState) (op : Op) :
    (∀ d, s.discordToWallet d ≠ 0 →
      (execOp s op).discordToWallet d = s.discordToWallet d) ∧
    (∀ w, s.walletToDiscord w ≠ "" →
      (execOp s op).walletToDiscord w = s.walletToDiscord w) := by
  cases hex : applyOp s op with
  | error e =>
    rw [execOp_of_error hex]
    exact ⟨fun _ _ => rfl, fun _ _ => rfl⟩
  | ok s1 =>
    rw [execOp_of_ok hex]
    cases op with
    | propose sender token debtor amount memo =>
      obtain ⟨_, _, _, _, hdw, hwd, _, _, _⟩ := proposeDebt_ok hex
      exact ⟨fun d _ => by rw [hdw], fun w _ => by rw [hwd]⟩
    | confirm sender pid ts =>
      obtain ⟨_, _, s2, hadd, hs1⟩ := confirmDebt_ok hex
      obtain ⟨_, _, hdw, hwd, _, _⟩ := addDebt_ok_frame hadd
      constructor
      · intro d _
        rw [hs1]
        simp [emitEvent, hdw]
      · intro w _
        rw [hs1]
        simp [emitEvent, hwd]
    | reject sender pid =>
      obtain ⟨_, _, hs1⟩ := rejectDebt_ok hex
      constructor
      · intro d _
        rw [hs1]
        simp [emitEvent]
      · intro w _
        rw [hs1]
        simp [emitEvent]
    | settle sender token creditor tr =>
      obtain ⟨_, _, hs1⟩ := settleDebt_ok hex
      constructor
      · intro d _
        rw [hs1]
        simp [emitEvent, settleIntermediate, setDebt]
      · intro w _
        rw [hs1]
        simp [emitEvent, settleIntermediate, setDebt]
    | register discordId walletAddress =>
      obtain ⟨h1, h2, h3, h4, hs1⟩ := registerUser_ok hex
      constructor
      · intro d hd
        rw [hs1]
        simp only [emitEvent]
        by_cases hdd : d = discordId
        · subst hdd
          exact absurd h3 hd
        · exact Function.update_noteq hdd _ _
      · intro w hw
        rw [hs1]
        simp only [emitEvent]
        by_cases hww : w = walletAddress
        · subst hww
          exact absurd h4 hw
        · exact Function.update_noteq hww _ _

theorem regInv_execOp {s : ContractState} (op : Op) (hinv : RegInv s) :
    RegInv (execOp s op) := by
  obtain ⟨hbase1, hbase2, hinva, hinvb⟩ := hinv
  cases hex : applyOp s op with
  | error e =>
    rw [execOp_of_error hex]
    exact ⟨hbase1, hbase2, hinva, hinvb⟩
  | ok s1 =>
    rw [execOp_of_ok hex]
    have hmaps : ∀ s2 : ContractState,
        s2.discordToWallet = s.discordToWallet → s2.walletToDiscord = s.walletToDiscord →
        RegInv s2 := by
      intro s2 hdw hwd
      rw [RegInv, hdw, hwd]
      exact ⟨hbase1, hbase2, hinva, hinvb⟩
    cases op with
    | propose sender token debtor amount memo =>
      obtain ⟨_, _, _, _, hdw, hwd, _, _, _⟩ := proposeDebt_ok hex
      exact hmaps s1 hdw hwd
    | confirm sender pid ts =>
      obtain ⟨_, _, s2, hadd, hs1⟩ := confirmDebt_ok hex
      obtain ⟨_, _, hdw, hwd, _, _⟩ := addDebt_ok_frame hadd
      refine hmaps s1 ?_ ?_
      · rw [hs1]
        simp [emitEvent, hdw]
      · rw [hs1]
        simp [emitEvent, hwd]
    | reject sender pid =>
      obtain ⟨_, _, hs1⟩ := rejectDebt_ok hex
      refine hmaps s1 ?_ ?_
      · rw [hs1]
        simp [emitEvent]
      · rw [hs1]
        simp [emitEvent]
    | settle sender token creditor tr =>
      obtain ⟨_, _, hs1⟩ := settleDebt_ok hex
      refine hmaps s1 ?_ ?_
      · rw [hs1]
        simp [emitEvent, settleIntermediate, setDebt]
      · rw [hs1]
        simp [emitEvent, settleIntermediate, setDebt]
    | register discordId walletAddress =>
      obtain ⟨h1, h2, h3, h4, hs1⟩ := registerUser_ok hex
      have hdw : s1.discordToWallet =
          Function.update s.discordToWallet discordId walletAddress := by
        rw [hs1]
        simp [emitEvent]
      have hwd : s1.walletToDiscord =
          Function.update s.walletToDiscord walletAddress discordId := by
        rw [hs1]
        simp [emitEvent]
      refine ⟨?_, ?_, ?_, ?_⟩
      · rw [hdw, Function.update_noteq (fun hh => h1 hh.symm)]
        exact hbase1
      · rw [hwd, Function.update_noteq (fun hh => h2 hh.symm)]
        exact hbase2
      · intro d hd
        rw [hdw] at hd ⊢
        rw [hwd]
        by_cases hdd : d = discordId
        · subst hdd
          rw [Function.update_same, Function.update_same]
        · rw [Function.update_noteq hdd] at hd ⊢
          have hne : s.discordToWallet d ≠ walletAddress := by
            intro hcontra
            have hthis := hinva d hd
            rw [hcontra, h4] at hthis
            rw [← hthis] at hd
            exact hd hbase1
          rw [Function.update_noteq hne]
          exact hinva d hd
      · intro w hw
        rw [hwd] at hw ⊢
        rw [hdw]
        by_cases hww : w = walletAddress
        · subst hww
          rw [Function.update_same, Function.update_same]
        · rw [Function.update_noteq hww] at hw ⊢
          have hne : s.walletToDiscord w ≠ discordId := by
            intro hcontra
            have hthis := hinvb w hw
            rw [hcontra, h3] at hthis
            rw [← hthis] at hw
            exact hw hbase2
          rw [Function.update_noteq hne]
          exact hinvb w hw

theorem regInv_initial : RegInv initialState := by
  refine ⟨rfl, rfl, ?_, ?_⟩
  · intro d hd
    exact absurd rfl hd
  · intro w hw
    exact absurd rfl hw

theorem regInv_execOps (ops : List Op) :
    ∀ s : ContractState, RegInv s → RegInv (execOps s ops) := by
  induction ops with
  | nil => intro s hinv; exact hinv
  | cons op rest ih =>
    intro s hinv
    exact ih (execOp s op) (regInv_execOp op hinv)

/-- C10 (implicit): registration is a permanent one-to-one mapping —
`registerUser` succeeds exactly when the id is non-empty, the wallet
non-zero, and both are still unregistered; every reachable state keeps the
two maps mutually inverse (hence one-to-one); and no operation ever
removes or overwrites an existing registration. -/
theorem registration_permanent_one_to_one :
    (∀ (s : ContractState) (d : String) (w : Address),
      (∃ s1, registerUser s d w = Except.ok s1) ↔
        (d ≠ "" ∧ w ≠ 0 ∧ s.discordToWallet d = 0 ∧ s.walletToDiscord w = "")) ∧
    (∀ ops, RegInv (execOps initialState ops)) ∧
    (∀ (s : ContractState) (op : Op) (d : String), s.discordToWallet d ≠ 0 →
      (execOp s op).discordToWallet d = s.discordToWallet d) ∧
    (∀ (s : ContractState) (op : Op) (w : Address), s.walletToDiscord w ≠ "" →
      (execOp s op).walletToDiscord w = s.walletToDiscord w) ∧
    (∀ (ops : List Op) (d1 d2 : String),
      (execOps initialState ops).discordToWallet d1 ≠ 0 →
      (execOps initialState ops).discordToWallet d1 =
        (execOps initialState ops).discordToWallet d2 → d1 = d2) := by
  refine ⟨?_, ?_, ?_, ?_, ?_⟩
  · intro s d w
    constructor
    · rintro ⟨s1, h⟩
      obtain ⟨h1, h2, h3, h4, _⟩ := registerUser_ok h
      exact ⟨h1, h2, h3, h4⟩
    · rintro ⟨h1, h2, h3, h4⟩
      exact registerUser_ok_of h1 h2 h3 h4
  · intro ops
    exact regInv_execOps ops initialState regInv_initial
  · intro s op d hd
    exact (regmaps_execOp_preserved s op).1 d hd
  · intro s op w hw
    exact (regmaps_execOp_preserved s op).2 w hw
  · intro ops d1 d2 h1 h12
    have hinv := regInv_execOps ops initialState regInv_initial
    have ha := hinv.2.2.1 d1 h1
    have h2 : (execOps initialState ops).discordToWallet d2 ≠ 0 := by
      rw [← h12]
      exact h1
    have hb := hinv.2.2.1 d2 h2
    rw [h12] at ha
    rw [ha] at hb
    exact hb

/-- Witness for C10: a concrete registration survives a later operation. -/
theorem registration_permanent_one_to_one_witness :
    (execOps initialState [Op.register "a" 5]).discordToWallet "a" ≠ 0 ∧
    (execOp (execOps initialState [Op.register "a" 5])
      (Op.register "b" 7)).discordToWallet "a" =
      (execOps initialState [Op.register "a" 5]).discordToWallet "a" :=
  ⟨by decide, registration_permanent_one_to_one.2.2.1
    (execOps initialState [Op.register "a" 5]) (Op.register "b" 7) "a" (by decide)⟩

end BillTheAccountant
